import Mathlib

/-!
Verification development for the lease/payment lifecycle engine of a
property-rental management backend (Express + Mongoose).

The embedding models:
  * JavaScript calendar-date arithmetic (`setDate`, `setMonth`, date
    comparison) at whole-day granularity, as used by the payment-schedule
    generator in `routes/leases.js` (`createPaymentSchedule`);
  * the Mongoose data model (`models/Payment.js`, `models/Lease.js`,
    `models/Property.js`, user model), including the schema validators and
    the `pre('save')` receipt-number hook that the claims depend on;
  * the route handlers `POST /api/leases`, `PUT /api/leases/:id/terminate`
    (`routes/leases.js`) and `PUT /api/payments/:id/pay`
    (`routes/payments.js`) as pure state transformers over an explicit
    in-memory store.

Times are modeled at day granularity: every JS `Date` involved in the
claims is a calendar day (midnight-aligned), so `Math.ceil((a-b)/86400000)`
is the exact difference of civil day numbers.
-/

/-- A calendar date as JavaScript's `Date` exposes it (year, 1-based month,
day of month).  JS stores ms since epoch, so stored dates are always
canonical: `month ∈ [1,12]`, `day ∈ [1, daysInMonth]`.  Non-canonical
triples only appear transiently as inputs to `mkDate`, which normalizes
exactly like the JS setters do for the day values `≥ 1` that occur here. -/
structure Date where
  year : Int
  month : Int
  day : Int
deriving DecidableEq, Repr

/-- Gregorian leap-year rule, as implemented by JS `Date`. -/
def isLeapYear (y : Int) : Bool :=
  decide (y % 4 = 0) && (decide (¬ y % 100 = 0) || decide (y % 400 = 0))

/-- Number of days in a month of a given year. -/
def daysInMonth (y m : Int) : Int :=
  if m = 2 then (if isLeapYear y then 29 else 28)
  else if m = 4 ∨ m = 6 ∨ m = 9 ∨ m = 11 then 30
  else 31

/-- Normalization of a (year, month, day) triple to a canonical date, the
way JS `Date#setMonth`/`setDate` do: the month is folded into the year,
and a day past the end of the month overflows into the next month.  A
single carry suffices for the day values reaching this function (`1 ≤ d ≤ 31`,
and every month has at least 28 days, so the overflow is at most 3). -/
def mkDate (y m d : Int) : Date :=
  if d ≤ daysInMonth (y + (m - 1) / 12) ((m - 1) % 12 + 1) then
    ⟨y + (m - 1) / 12, (m - 1) % 12 + 1, d⟩
  else if (m - 1) % 12 + 1 = 12 then
    ⟨y + (m - 1) / 12 + 1, 1, d - daysInMonth (y + (m - 1) / 12) ((m - 1) % 12 + 1)⟩
  else
    ⟨y + (m - 1) / 12, (m - 1) % 12 + 2, d - daysInMonth (y + (m - 1) / 12) ((m - 1) % 12 + 1)⟩

/-- Linear month index: months of canonical dates are totally ordered by it. -/
def monthIdx (d : Date) : Int := 12 * d.year + d.month

/-- Calendar order on dates.  For canonical dates this is exactly the
comparison JS performs on the underlying ms-since-epoch values. -/
def dateLe (a b : Date) : Bool :=
  decide (monthIdx a < monthIdx b) ||
    (decide (monthIdx a = monthIdx b) && decide (a.day ≤ b.day))

/-- Strict calendar order on dates (JS `<` on `Date` values). -/
def dateLt (a b : Date) : Bool :=
  decide (monthIdx a < monthIdx b) ||
    (decide (monthIdx a = monthIdx b) && decide (a.day < b.day))

/-- Civil day number (days since 1970-01-01), computed from the Gregorian
calendar fields.  Models the ms-since-epoch value of a midnight-aligned JS
`Date`, divided by 86400000. -/
def toDays (dt : Date) : Int :=
  let y : Int := if dt.month ≤ 2 then dt.year - 1 else dt.year
  let era : Int := y.fdiv 400
  let yoe : Int := y - era * 400
  let mp : Int := (dt.month + 9) % 12
  let doy : Int := (153 * mp + 2) / 5 + dt.day - 1
  let doe : Int := yoe * 365 + yoe / 4 - yoe / 100 + doy
  era * 146097 + doe - 719468

/-- JS `d.setMonth(d.getMonth() + 1)`: advance one calendar month, with
day overflow into the following month when the target month is shorter. -/
def addOneMonth (d : Date) : Date := mkDate d.year (d.month + 1) d.day

/-- English month name, as produced by
`toLocaleDateString('en-US', { month: 'long' })`. -/
def monthName (m : Int) : String :=
  if m = 1 then "January" else if m = 2 then "February"
  else if m = 3 then "March" else if m = 4 then "April"
  else if m = 5 then "May" else if m = 6 then "June"
  else if m = 7 then "July" else if m = 8 then "August"
  else if m = 9 then "September" else if m = 10 then "October"
  else if m = 11 then "November" else "December"

/-- The label `toLocaleDateString('en-US', { month: 'long', year: 'numeric' })`
used in scheduled payments' descriptions. -/
def monthYearLabel (d : Date) : String :=
  monthName d.month ++ " " ++ toString d.year

/-- The while-loop of `createPaymentSchedule`, fuel-indexed.  Each
iteration emits the current candidate due date and advances it by one
calendar month; the loop stops once the candidate passes the lease's end
date.  The fuel only bounds the number of iterations; `scheduleDates`
supplies a fuel value that provably never runs out (each iteration
advances the month index by at least one). -/
def scheduleDatesAux : Nat → Date → Date → List Date
  | 0, _, _ => []
  | fuel + 1, endD, cur =>
      if dateLe cur endD then cur :: scheduleDatesAux fuel endD (addOneMonth cur) else []

/-- The due dates emitted by the `while (currentDate <= endDate)` loop of
`createPaymentSchedule` in `routes/leases.js`, starting from candidate
`cur`. -/
def scheduleDates (endD cur : Date) : List Date :=
  scheduleDatesAux (monthIdx endD + 1 - monthIdx cur).toNat endD cur

/-- Canonical date of a month index together with a day of month; inverse
of `monthIdx` on canonical dates. -/
def dateOfIdx (i day : Int) : Date := ⟨(i - 1) / 12, (i - 1) % 12 + 1, day⟩

/-- Closed form for the number of dates the schedule loop emits. -/
def scheduleLen (endD cur : Date) : Nat :=
  if dateLe cur endD then
    (monthIdx endD - monthIdx cur + (if cur.day ≤ endD.day then 1 else 0)).toNat
  else 0

/-- Floor of the (possibly fractional) number of calendar months from `a`
to `b`: whole months elapsed between the two dates. -/
def monthsBetweenFloor (a b : Date) : Int :=
  monthIdx b - monthIdx a - (if b.day < a.day then 1 else 0)

lemma daysInMonth_ge (y m : Int) : 28 ≤ daysInMonth y m := by
  unfold daysInMonth
  split_ifs <;> omega

lemma daysInMonth_le (y m : Int) : daysInMonth y m ≤ 31 := by
  unfold daysInMonth
  split_ifs <;> omega

lemma monthIdx_mkDate (y m d : Int) :
    monthIdx (mkDate y m d) = 12 * y + m ∨ monthIdx (mkDate y m d) = 12 * y + m + 1 := by
  have h12 : 12 * ((m - 1) / 12) + (m - 1) % 12 = m - 1 := Int.ediv_add_emod _ _
  unfold mkDate monthIdx
  split_ifs <;> simp <;> omega

lemma monthIdx_addOneMonth (d : Date) :
    monthIdx (addOneMonth d) = monthIdx d + 1 ∨ monthIdx (addOneMonth d) = monthIdx d + 2 := by
  have h := monthIdx_mkDate d.year (d.month + 1) d.day
  unfold addOneMonth monthIdx at *
  omega

lemma dateOfIdx_monthIdx (i day : Int) : monthIdx (dateOfIdx i day) = i := by
  have h12 : 12 * ((i - 1) / 12) + (i - 1) % 12 = i - 1 := Int.ediv_add_emod _ _
  simp only [dateOfIdx, monthIdx]
  omega

lemma dateOfIdx_month_lb (i day : Int) : 1 ≤ (dateOfIdx i day).month := by
  simp only [dateOfIdx]
  omega

lemma dateOfIdx_month_ub (i day : Int) : (dateOfIdx i day).month ≤ 12 := by
  simp only [dateOfIdx]
  omega

lemma dateOfIdx_day (i day : Int) : (dateOfIdx i day).day = day := rfl

lemma dateOfIdx_self (d : Date) (h1 : 1 ≤ d.month) (h2 : d.month ≤ 12) :
    dateOfIdx (monthIdx d) d.day = d := by
  obtain ⟨y, m, dy⟩ := d
  simp only [dateOfIdx, monthIdx, Date.mk.injEq] at *
  refine ⟨by omega, by omega, trivial⟩

lemma addOneMonth_small (d : Date) (h1 : 1 ≤ d.month) (h2 : d.month ≤ 12) (hd : d.day ≤ 28) :
    addOneMonth d = dateOfIdx (monthIdx d + 1) d.day := by
  have h28 := daysInMonth_ge (d.year + (d.month + 1 - 1) / 12) ((d.month + 1 - 1) % 12 + 1)
  unfold addOneMonth mkDate
  rw [if_pos (by omega)]
  simp only [dateOfIdx, monthIdx, Date.mk.injEq]
  refine ⟨by omega, by omega, trivial⟩

lemma scheduleDatesAux_spec (endD : Date) :
    ∀ (n : Nat) (cur : Date), 1 ≤ cur.month → cur.month ≤ 12 → cur.day ≤ 28 →
      (monthIdx endD + 1 - monthIdx cur).toNat ≤ n →
      scheduleDatesAux n endD cur =
        (List.range (scheduleLen endD cur)).map
          (fun k : Nat => dateOfIdx (monthIdx cur + (k : Int)) cur.day) := by
  intro n
  induction n with
  | zero =>
      intro cur h1 h2 h3 hn
      have hle : dateLe cur endD = false := by
        cases h : dateLe cur endD with
        | false => rfl
        | true =>
          exfalso
          unfold dateLe at h
          simp only [Bool.or_eq_true, Bool.and_eq_true, decide_eq_true_eq] at h
          omega
      simp [scheduleDatesAux, scheduleLen, hle]
  | succ n ih =>
      intro cur h1 h2 h3 hn
      by_cases hle : dateLe cur endD = true
      · have hle2 := hle
        unfold dateLe at hle2
        simp only [Bool.or_eq_true, Bool.and_eq_true, decide_eq_true_eq] at hle2
        have hmono : monthIdx cur ≤ monthIdx endD := by omega
        have hnext : addOneMonth cur = dateOfIdx (monthIdx cur + 1) cur.day :=
          addOneMonth_small cur h1 h2 h3
        have hcm : monthIdx (addOneMonth cur) = monthIdx cur + 1 := by
          rw [hnext, dateOfIdx_monthIdx]
        have hday : (addOneMonth cur).day = cur.day := by
          rw [hnext, dateOfIdx_day]
        have hrec := ih (addOneMonth cur)
          (by rw [hnext]; exact dateOfIdx_month_lb _ _)
          (by rw [hnext]; exact dateOfIdx_month_ub _ _)
          (by rw [hday]; exact h3)
          (by rw [hcm]; omega)
        have hstep : scheduleDatesAux (n + 1) endD cur =
            cur :: scheduleDatesAux n endD (addOneMonth cur) := by
          simp [scheduleDatesAux, hle]
        have hlen : scheduleLen endD cur = scheduleLen endD (addOneMonth cur) + 1 := by
          unfold scheduleLen dateLe
          rw [hcm, hday]
          simp only [Bool.or_eq_true, Bool.and_eq_true, decide_eq_true_eq]
          split_ifs <;> omega
        rw [hstep, hrec, hcm, hday, hlen]
        rw [List.range_succ_eq_map]
        simp only [List.map_cons, List.map_map]
        congr 1
        · simp only [Nat.cast_zero, add_zero]
          exact (dateOfIdx_self cur h1 h2).symm
        · apply List.map_congr_left
          intro k _
          simp only [Function.comp_apply, Nat.succ_eq_add_one]
          congr 1
          push_cast
          ring
      · have hle' : dateLe cur endD = false := by
          cases h : dateLe cur endD
          · rfl
          · exact absurd h hle
        simp [scheduleDatesAux, scheduleLen, hle']

lemma scheduleDates_spec (endD cur : Date) (h1 : 1 ≤ cur.month) (h2 : cur.month ≤ 12)
    (h3 : cur.day ≤ 28) :
    scheduleDates endD cur =
      (List.range (scheduleLen endD cur)).map
        (fun k : Nat => dateOfIdx (monthIdx cur + (k : Int)) cur.day) :=
  scheduleDatesAux_spec endD _ cur h1 h2 h3 (Nat.le_refl _)

/-- Payment status enum of `models/Payment.js` (the source's `'partial'`
status is spelled `partialPayment` here, `partial` being a Lean keyword). -/
inductive PaymentStatus
  | pending | completed | failed | refunded | partialPayment
deriving DecidableEq, Repr

/-- Payment type enum of `models/Payment.js`. -/
inductive PaymentType
  | rent | security_deposit | late_fee | pet_deposit | utility | maintenance | other
deriving DecidableEq, Repr

/-- Lease status enum of `models/Lease.js`. -/
inductive LeaseStatus
  | active | expired | terminated | pending | renewed
deriving DecidableEq, Repr

/-- Property occupancy status enum of `models/Property.js`. -/
inductive PropStatus
  | available | occupied | maintenance | unavailable
deriving DecidableEq, Repr

/-- User role enum. -/
inductive Role
  | admin | property_manager | tenant
deriving DecidableEq, Repr

/-- A Payment document (`models/Payment.js`).  Document ids are modeled as
naturals.  Fields not involved in any claim (attachments, invoice fields,
`nextDueDate`) are omitted; they are never read by the modeled routes. -/
structure Payment where
  id : Nat
  lease : Option Nat
  tenant : Nat
  property : Nat
  amount : Int
  paymentType : PaymentType
  paymentMethod : String
  status : PaymentStatus
  dueDate : Date
  paidDate : Option Date
  lateFee : Int
  description : String
  transactionId : Option String
  receiptNumber : Option String
  notes : String
  isRecurring : Bool
deriving DecidableEq, Repr

/-- A Lease document (`models/Lease.js`).  The `lateFee` subdocument is
flattened into its two fields; fields not read by the modeled routes
(utilities, renewal notice, documents, ...) are omitted. -/
structure Lease where
  id : Nat
  property : Nat
  tenant : Nat
  startDate : Date
  endDate : Date
  monthlyRent : Int
  securityDeposit : Int
  status : LeaseStatus
  leaseTerms : String
  paymentDueDate : Int
  lateFeeAmount : Int
  lateFeeGracePeriod : Int
  petDeposit : Int
deriving DecidableEq, Repr

/-- A Property document (`models/Property.js`), restricted to the fields
the lease lifecycle reads and writes. -/
structure Property where
  id : Nat
  rentAmount : Int
  securityDeposit : Int
  status : PropStatus
  currentTenant : Option Nat
  currentLease : Option Nat
deriving DecidableEq, Repr

/-- A User document, restricted to the fields the lease lifecycle reads
and writes. -/
structure User where
  id : Nat
  role : Role
  propertyId : Option Nat
  leaseId : Option Nat
deriving DecidableEq, Repr

/-- The persistent store: one collection per model, plus a counter that
supplies fresh document ids (standing in for MongoDB ObjectId generation). -/
structure DB where
  properties : List Property
  users : List User
  leases : List Lease
  payments : List Payment
  nextId : Nat
deriving DecidableEq, Repr

/-- An HTTP response, reduced to status code and message. -/
structure Resp where
  code : Nat
  msg : String
deriving DecidableEq, Repr

/-- JS `x || d` for an optional numeric field: an absent value and the
falsy value `0` both fall back to the default. -/
def jsOrNum (o : Option Int) (d : Int) : Int :=
  match o with
  | none => d
  | some v => if v = 0 then d else v

/-- In-place update of every collection entry matching a predicate
(`findByIdAndUpdate` / mutate-then-`save` on a fetched document). -/
def updateWhere (xs : List α) (p : α → Bool) (f : α → α) : List α :=
  xs.map (fun x => if p x then f x else x)

/-- Assign fresh ids to a batch of new documents, starting at `n0`. -/
def withIds (n0 : Nat) : List Payment → List Payment
  | [] => []
  | p :: ps => { p with id := n0 } :: withIds (n0 + 1) ps

/-- The `paymentSchema.pre('save')` hook of `models/Payment.js`: on save,
a payment that is `completed` and has no receipt number yet receives one.
The generated string `RCP-${Date.now()}-${random}` is supplied by the
caller as `fresh` (time and randomness are environment inputs). -/
def receiptHook (p : Payment) (fresh : String) : Payment :=
  if p.receiptNumber = none ∧ p.status = PaymentStatus.completed then
    { p with receiptNumber := some fresh }
  else p

/-- The `paymentMethod` enum of `models/Payment.js`.  Note that the string
`'pending'` hard-coded by `createPaymentSchedule` is NOT in this enum. -/
def paymentMethodAllowed (s : String) : Bool :=
  s == "cash" || s == "check" || s == "bank_transfer" || s == "credit_card" ||
    s == "online" || s == "other"

/-- Schema validation applied by Mongoose to a Payment document on insert. -/
def paymentValid (p : Payment) : Bool :=
  paymentMethodAllowed p.paymentMethod && decide (0 ≤ p.amount)

/-- `Payment.insertMany(payments)` inside `createPaymentSchedule`'s
`try { ... } catch`: Mongoose validates every document first and rejects
the whole batch if any fails; the surrounding catch swallows the error, so
a failed batch inserts nothing and the caller proceeds. -/
def insertManyPayments (db : DB) (ps : List Payment) : DB :=
  if ps.all paymentValid then
    { db with payments := db.payments ++ withIds db.nextId ps, nextId := db.nextId + ps.length }
  else db

/-- The candidate first due date of `createPaymentSchedule`: the lease's
`paymentDueDate` within the start month (`setDate`), advanced one calendar
month when that candidate precedes `startDate`. -/
def effectiveFirstDue (L : Lease) : Date :=
  let cur0 := mkDate L.startDate.year L.startDate.month L.paymentDueDate
  if dateLt cur0 L.startDate then addOneMonth cur0 else cur0

/-- The rent Payment document `createPaymentSchedule` pushes for a due
date (id 0 is a placeholder; ids are assigned at insert). -/
def rentPaymentOn (L : Lease) (d : Date) : Payment :=
  { id := 0, lease := some L.id, tenant := L.tenant, property := L.property,
    amount := L.monthlyRent, paymentType := PaymentType.rent,
    paymentMethod := "pending", status := PaymentStatus.pending,
    dueDate := d, paidDate := none, lateFee := 0,
    description := "Monthly rent for " ++ monthYearLabel d,
    transactionId := none, receiptNumber := none, notes := "",
    isRecurring := true }

/-- The sequence of rent payments `createPaymentSchedule` builds in memory
for a lease (`routes/leases.js`), before attempting `insertMany`. -/
def createPaymentSchedule (L : Lease) : List Payment :=
  (scheduleDates L.endDate (effectiveFirstDue L)).map (rentPaymentOn L)

/-- The overlapping-lease query of `POST /api/leases`: same property,
status active or pending, and `existing.start ≤ new.end AND
existing.end ≥ new.start`. -/
def overlapCheck (propertyId : Nat) (startDate endDate : Date) (L : Lease) : Bool :=
  decide (L.property = propertyId) &&
  (decide (L.status = LeaseStatus.active) || decide (L.status = LeaseStatus.pending)) &&
  dateLe L.startDate endDate && dateLe startDate L.endDate

/-- The request body of `POST /api/leases`, with JS-optional numeric
fields as options. -/
structure LeaseInput where
  propertyId : Nat
  tenantId : Nat
  startDate : Date
  endDate : Date
  monthlyRent : Option Int
  securityDeposit : Option Int
  leaseTerms : String
  paymentDueDate : Option Int
  lateFee : Option (Int × Int)
  petDeposit : Option Int
deriving DecidableEq, Repr

/-- The `leaseData` object built by `POST /api/leases`: `||`-defaults for
rent/deposit from the property, `paymentDueDate || 1`,
`lateFee || { amount: 50, gracePeriod: 5 }`, status pending. -/
def leaseDataOf (newId : Nat) (P : Property) (inp : LeaseInput) : Lease :=
  { id := newId, property := inp.propertyId, tenant := inp.tenantId,
    startDate := inp.startDate, endDate := inp.endDate,
    monthlyRent := jsOrNum inp.monthlyRent P.rentAmount,
    securityDeposit := jsOrNum inp.securityDeposit P.securityDeposit,
    status := LeaseStatus.pending,
    leaseTerms := inp.leaseTerms,
    paymentDueDate := jsOrNum inp.paymentDueDate 1,
    lateFeeAmount := (inp.lateFee.getD (50, 5)).1,
    lateFeeGracePeriod := (inp.lateFee.getD (50, 5)).2,
    petDeposit := jsOrNum inp.petDeposit 0 }

/-- Mongoose schema validation run by `lease.save()`: numeric minimums,
`paymentDueDate` between 1 and 31, and required non-empty `leaseTerms`. -/
def leaseValid (L : Lease) : Bool :=
  decide (0 ≤ L.monthlyRent) && decide (0 ≤ L.securityDeposit) &&
  decide (1 ≤ L.paymentDueDate) && decide (L.paymentDueDate ≤ 31) &&
  decide (L.leaseTerms ≠ "")

/-- `POST /api/leases` (`routes/leases.js`): validate property and tenant,
reject overlapping active/pending leases, persist the lease (a schema
validation failure surfaces as the route's catch-all 500 and persists
nothing, since `lease.save()` runs before every other write), update the
property and tenant cross-references, then attempt to materialize the
payment schedule — whose failure is swallowed.  The source performs the
lease, property and tenant writes sequentially; they touch disjoint
collections, so they are modeled as one store update. -/
def createLease (db : DB) (inp : LeaseInput) : DB × Resp :=
  match db.properties.find? (fun x => decide (x.id = inp.propertyId)) with
  | none => (db, ⟨400, "Property not found"⟩)
  | some P =>
    match db.users.find? (fun u => decide (u.id = inp.tenantId)) with
    | none => (db, ⟨400, "Invalid tenant"⟩)
    | some T =>
      if T.role = Role.tenant then
        match db.leases.find? (overlapCheck inp.propertyId inp.startDate inp.endDate) with
        | some _ => (db, ⟨400, "Property has overlapping lease dates"⟩)
        | none =>
          if leaseValid (leaseDataOf db.nextId P inp) then
            (insertManyPayments
              { db with
                leases := db.leases ++ [leaseDataOf db.nextId P inp],
                nextId := db.nextId + 1,
                properties := updateWhere db.properties
                  (fun x => decide (x.id = inp.propertyId))
                  (fun x => { x with
                    currentLease := some (leaseDataOf db.nextId P inp).id,
                    currentTenant := some inp.tenantId,
                    status := PropStatus.occupied }),
                users := updateWhere db.users (fun u => decide (u.id = inp.tenantId))
                  (fun u => { u with
                    leaseId := some (leaseDataOf db.nextId P inp).id,
                    propertyId := some inp.propertyId }) }
              (createPaymentSchedule (leaseDataOf db.nextId P inp)),
             ⟨201, "Lease created successfully"⟩)
          else (db, ⟨500, "Server error creating lease"⟩)
      else (db, ⟨400, "Invalid tenant"⟩)

/-- The request body of `PUT /api/payments/:id/pay`. -/
structure PayBody where
  paymentMethod : String
  transactionId : String
  notes : Option String
  paidAmount : Option Int
deriving DecidableEq, Repr

/-- The late-fee assessment of `PUT /api/payments/:id/pay`: when the
settlement date is past the due date, look up the payment's lease and, if
`daysLate = ceil((now - dueDate)/1 day)` exceeds the grace period, charge
`lease.lateFee.amount`.  With midnight-aligned dates the ceiling is the
exact difference of civil day numbers. -/
def assessLateFee (db : DB) (p : Payment) (now : Date) : Int :=
  if dateLt p.dueDate now then
    match p.lease with
    | none => 0
    | some lid =>
      match db.leases.find? (fun L => decide (L.id = lid)) with
      | none => 0
      | some L =>
        if L.lateFeeGracePeriod < toDays now - toDays p.dueDate then L.lateFeeAmount else 0
  else 0

/-- The synthetic late-fee Payment row created on settlement when a
nonzero fee is assessed. -/
def lateFeeRowOf (newId : Nat) (p : Payment) (body : PayBody) (now : Date) (fee : Int) : Payment :=
  { id := newId, lease := p.lease, tenant := p.tenant, property := p.property,
    amount := fee, paymentType := PaymentType.late_fee,
    paymentMethod := body.paymentMethod, status := PaymentStatus.completed,
    dueDate := now, paidDate := some now, lateFee := 0,
    description := "Late fee for payment " ++ toString p.id,
    transactionId := some (body.transactionId ++ "_LATE"),
    receiptNumber := none, notes := "", isRecurring := false }

/-- The mutation `PUT /api/payments/:id/pay` applies to the fetched
payment: force `status=completed`, set `paidDate` to now, overwrite
`paymentMethod/transactionId/notes`, store the assessed fee, and override
`amount` with `paidAmount || amount` (JS falsy semantics). -/
def settledPayment (db : DB) (p : Payment) (body : PayBody) (now : Date) : Payment :=
  { p with
    status := PaymentStatus.completed, paidDate := some now,
    paymentMethod := body.paymentMethod, transactionId := some body.transactionId,
    notes := body.notes.getD "", lateFee := assessLateFee db p now,
    amount := jsOrNum body.paidAmount p.amount }

/-- `PUT /api/payments/:id/pay` (`routes/payments.js`): 404 when the
payment does not exist; otherwise (with no check of the current status)
assess the late fee, overwrite the payment via `settledPayment`, save
(running the receipt hook with fresh string `fresh1`), and append the
synthetic late-fee row when the fee is positive (its save runs the hook
with `fresh2`). -/
def pay (db : DB) (now : Date) (pid : Nat) (body : PayBody) (fresh1 fresh2 : String) :
    DB × Resp :=
  match db.payments.find? (fun p => decide (p.id = pid)) with
  | none => (db, ⟨404, "Payment not found"⟩)
  | some p =>
    if 0 < assessLateFee db p now then
      ({ db with
          payments := updateWhere db.payments (fun q => decide (q.id = pid))
              (fun _ => receiptHook (settledPayment db p body now) fresh1)
            ++ [receiptHook (lateFeeRowOf db.nextId p body now (assessLateFee db p now)) fresh2],
          nextId := db.nextId + 1 },
       ⟨200, "Payment marked as paid successfully"⟩)
    else
      ({ db with
          payments := updateWhere db.payments (fun q => decide (q.id = pid))
            (fun _ => receiptHook (settledPayment db p body now) fresh1) },
       ⟨200, "Payment marked as paid successfully"⟩)

/-- `PUT /api/leases/:id/terminate` (`routes/leases.js`): 404 when the
lease does not exist; otherwise set its status to terminated, clear the
property's tenant/lease references and mark it available, clear the
tenant's back-references.  Payment rows are never touched. -/
def terminate (db : DB) (lid : Nat) : DB × Resp :=
  match db.leases.find? (fun L => decide (L.id = lid)) with
  | none => (db, ⟨404, "Lease not found"⟩)
  | some L =>
    ({ db with
        leases := updateWhere db.leases (fun x => decide (x.id = lid))
          (fun x => { x with status := LeaseStatus.terminated }),
        properties := updateWhere db.properties (fun P => decide (P.id = L.property))
          (fun P => { P with
            currentTenant := none,
            currentLease := none,
            status := PropStatus.available }),
        users := updateWhere db.users (fun u => decide (u.id = L.tenant))
          (fun u => { u with propertyId := none, leaseId := none }) },
     ⟨200, "Lease terminated successfully"⟩)

/-- A single `payment.save()` against the store: the pre-save hook runs,
and the unique sparse index on `receiptNumber` declared in
`models/Payment.js` rejects a save whose (non-null) receipt number
collides with a different document's.  Returns the updated store, or
`none` when the unique index rejects the write. -/
def savePayment (xs : List Payment) (p : Payment) (fresh : String) : Option (List Payment) :=
  let q := receiptHook p fresh
  if q.receiptNumber ≠ none ∧ ∃ r ∈ xs, r.id ≠ q.id ∧ r.receiptNumber = q.receiptNumber then
    none
  else if ∃ r ∈ xs, r.id = q.id then
    some (updateWhere xs (fun r => decide (r.id = q.id)) (fun _ => q))
  else
    some (xs ++ [q])

lemma receiptHook_id (p : Payment) (s : String) : (receiptHook p s).id = p.id := by
  unfold receiptHook; split_ifs <;> rfl

lemma receiptHook_status (p : Payment) (s : String) : (receiptHook p s).status = p.status := by
  unfold receiptHook; split_ifs <;> rfl

lemma receiptHook_amount (p : Payment) (s : String) : (receiptHook p s).amount = p.amount := by
  unfold receiptHook; split_ifs <;> rfl

lemma receiptHook_paidDate (p : Payment) (s : String) :
    (receiptHook p s).paidDate = p.paidDate := by
  unfold receiptHook; split_ifs <;> rfl

lemma receiptHook_paymentMethod (p : Payment) (s : String) :
    (receiptHook p s).paymentMethod = p.paymentMethod := by
  unfold receiptHook; split_ifs <;> rfl

lemma receiptHook_transactionId (p : Payment) (s : String) :
    (receiptHook p s).transactionId = p.transactionId := by
  unfold receiptHook; split_ifs <;> rfl

lemma receiptHook_notes (p : Payment) (s : String) : (receiptHook p s).notes = p.notes := by
  unfold receiptHook; split_ifs <;> rfl

lemma receiptHook_lateFee (p : Payment) (s : String) : (receiptHook p s).lateFee = p.lateFee := by
  unfold receiptHook; split_ifs <;> rfl

lemma receiptHook_paymentType (p : Payment) (s : String) :
    (receiptHook p s).paymentType = p.paymentType := by
  unfold receiptHook; split_ifs <;> rfl

lemma receiptHook_dueDate (p : Payment) (s : String) : (receiptHook p s).dueDate = p.dueDate := by
  unfold receiptHook; split_ifs <;> rfl

lemma receiptHook_lease (p : Payment) (s : String) : (receiptHook p s).lease = p.lease := by
  unfold receiptHook; split_ifs <;> rfl

lemma receiptHook_tenant (p : Payment) (s : String) : (receiptHook p s).tenant = p.tenant := by
  unfold receiptHook; split_ifs <;> rfl

lemma receiptHook_property (p : Payment) (s : String) :
    (receiptHook p s).property = p.property := by
  unfold receiptHook; split_ifs <;> rfl

lemma mem_updateWhere_src {α : Type} {xs : List α} {p : α → Bool} {f : α → α} {y : α}
    (hy : y ∈ updateWhere xs p f) : ∃ x ∈ xs, y = if p x then f x else x := by
  unfold updateWhere at hy
  obtain ⟨x, hx, hxy⟩ := List.mem_map.1 hy
  exact ⟨x, hx, hxy.symm⟩

lemma length_updateWhere {α : Type} (xs : List α) (p : α → Bool) (f : α → α) :
    (updateWhere xs p f).length = xs.length := by
  unfold updateWhere
  exact List.length_map _ _

lemma find?_eq_none_forall {α : Type} {xs : List α} {p : α → Bool} (h : xs.find? p = none) :
    ∀ x ∈ xs, p x = false := by
  intro x hx
  have h2 := List.find?_eq_none.1 h x hx
  cases hpx : p x with
  | false => rfl
  | true => exact absurd hpx h2

lemma find?_updateWhere {α : Type} (xs : List α) (p : α → Bool) (f : α → α)
    (hf : ∀ x, p x = true → p (f x) = true) :
    (updateWhere xs p f).find? p = (xs.find? p).map f := by
  induction xs with
  | nil => rfl
  | cons x xs ih =>
    show ((if p x then f x else x) :: updateWhere xs p f).find? p = ((x :: xs).find? p).map f
    by_cases hx : p x = true
    · rw [if_pos hx, List.find?_cons_of_pos _ (hf x hx), List.find?_cons_of_pos _ hx]
      rfl
    · rw [if_neg hx, List.find?_cons_of_neg _ hx, List.find?_cons_of_neg _ hx]
      exact ih

lemma find?_append_of_some {α : Type} {p : α → Bool} {l1 : List α} {y : α} (l2 : List α)
    (h : l1.find? p = some y) : (l1 ++ l2).find? p = some y := by
  induction l1 with
  | nil => simp at h
  | cons x xs ih =>
    by_cases hx : p x = true
    · rw [List.find?_cons_of_pos _ hx] at h
      rw [List.cons_append, List.find?_cons_of_pos _ hx]
      exact h
    · rw [List.find?_cons_of_neg _ hx] at h
      rw [List.cons_append, List.find?_cons_of_neg _ hx]
      exact ih h

lemma insertManyPayments_leases (db : DB) (ps : List Payment) :
    (insertManyPayments db ps).leases = db.leases := by
  unfold insertManyPayments; split_ifs <;> rfl

lemma insertManyPayments_properties (db : DB) (ps : List Payment) :
    (insertManyPayments db ps).properties = db.properties := by
  unfold insertManyPayments; split_ifs <;> rfl

lemma insertManyPayments_users (db : DB) (ps : List Payment) :
    (insertManyPayments db ps).users = db.users := by
  unfold insertManyPayments; split_ifs <;> rfl

lemma rentPaymentOn_method (L : Lease) (d : Date) :
    (rentPaymentOn L d).paymentMethod = "pending" := rfl

/-- The generated schedule never survives `insertMany`: every scheduled
rent row carries `paymentMethod: 'pending'`, a value missing from the
Payment schema's `paymentMethod` enum, so Mongoose validation fails the
batch (and the surrounding catch swallows the error).  Consequently the
payments collection is unchanged — a nonempty batch is rejected, and an
empty batch inserts nothing. -/
lemma insertManyPayments_schedule (db : DB) (L : Lease) :
    (insertManyPayments db (createPaymentSchedule L)).payments = db.payments := by
  have hpm : paymentMethodAllowed "pending" = false := by decide
  unfold insertManyPayments
  cases hs : createPaymentSchedule L with
  | nil => simp [withIds]
  | cons p ps =>
    have hp : p.paymentMethod = "pending" := by
      have hmem : p ∈ createPaymentSchedule L := by
        rw [hs]; exact List.mem_cons_self _ _
      obtain ⟨d, _, rfl⟩ := List.mem_map.1 hmem
      rfl
    have hpv : paymentValid p = false := by
      unfold paymentValid
      rw [hp, hpm, Bool.false_and]
    rw [if_neg]
    simp [List.all_cons, hpv]

lemma effectiveFirstDue_canonical (L : Lease)
    (hm1 : 1 ≤ L.startDate.month) (hm2 : L.startDate.month ≤ 12)
    (hd2 : L.paymentDueDate ≤ 28) :
    1 ≤ (effectiveFirstDue L).month ∧ (effectiveFirstDue L).month ≤ 12 ∧
      (effectiveFirstDue L).day = L.paymentDueDate := by
  have h28 := daysInMonth_ge (L.startDate.year + (L.startDate.month - 1) / 12)
    ((L.startDate.month - 1) % 12 + 1)
  have hcur0 : mkDate L.startDate.year L.startDate.month L.paymentDueDate =
      ⟨L.startDate.year + (L.startDate.month - 1) / 12,
       (L.startDate.month - 1) % 12 + 1, L.paymentDueDate⟩ := by
    unfold mkDate
    rw [if_pos (by omega)]
  have hcm1 : 1 ≤ (mkDate L.startDate.year L.startDate.month L.paymentDueDate).month := by
    rw [hcur0]; simp only; omega
  have hcm2 : (mkDate L.startDate.year L.startDate.month L.paymentDueDate).month ≤ 12 := by
    rw [hcur0]; simp only; omega
  have hcd : (mkDate L.startDate.year L.startDate.month L.paymentDueDate).day =
      L.paymentDueDate := by
    rw [hcur0]
  unfold effectiveFirstDue
  dsimp only
  split_ifs with hlt
  · have hadd := addOneMonth_small (mkDate L.startDate.year L.startDate.month L.paymentDueDate)
      hcm1 hcm2 (by omega)
    rw [hadd]
    exact ⟨dateOfIdx_month_lb _ _, dateOfIdx_month_ub _ _, by rw [dateOfIdx_day, hcd]⟩
  · exact ⟨hcm1, hcm2, hcd⟩

/-- The lease of the spec's worked example: 2024-01-15 to 2024-06-15,
`paymentDueDate = 1`, `monthlyRent = 1000`. -/
def exampleLease : Lease :=
  { id := 1, property := 1, tenant := 2,
    startDate := ⟨2024, 1, 15⟩, endDate := ⟨2024, 6, 15⟩,
    monthlyRent := 1000, securityDeposit := 1000,
    status := LeaseStatus.pending, leaseTerms := "12-month lease",
    paymentDueDate := 1, lateFeeAmount := 50, lateFeeGracePeriod := 5,
    petDeposit := 0 }

/-- A lease whose due-day 31 exercises the JS month-overflow: starting
2024-01-31 and ending 2024-04-30. -/
def rolloverLease : Lease :=
  { id := 1, property := 1, tenant := 2,
    startDate := ⟨2024, 1, 31⟩, endDate := ⟨2024, 4, 30⟩,
    monthlyRent := 1200, securityDeposit := 1200,
    status := LeaseStatus.pending, leaseTerms := "short lease",
    paymentDueDate := 31, lateFeeAmount := 50, lateFeeGracePeriod := 5,
    petDeposit := 0 }

/-- C1: for a lease with `startDate ≤ endDate` whose `paymentDueDate` is at
most 28 (so that the due-day exists in every calendar month), the schedule
generator emits exactly `floor(monthsBetween(effectiveFirstDue, endDate)) + 1`
rent payments (zero when `effectiveFirstDue > endDate`), their due dates
are the `paymentDueDate`-th of consecutive calendar months starting at
`effectiveFirstDue`, and each payment carries `amount = monthlyRent`,
type rent, status pending, `isRecurring = true`.  The spec's worked
example (2024-01-15 → 2024-06-15, due-day 1, rent 1000) yields exactly the
five payments 2024-02-01 … 2024-06-01 of amount 1000. -/
theorem claim1_payment_schedule (L : Lease)
    (hm1 : 1 ≤ L.startDate.month) (hm2 : L.startDate.month ≤ 12)
    (hd2 : L.paymentDueDate ≤ 28)
    (hrange : dateLe L.startDate L.endDate = true) :
    ((createPaymentSchedule L).length =
      if dateLe (effectiveFirstDue L) L.endDate = true then
        (monthsBetweenFloor (effectiveFirstDue L) L.endDate + 1).toNat
      else 0) ∧
    ((createPaymentSchedule L).map (fun p => p.dueDate) =
      (List.range (createPaymentSchedule L).length).map
        (fun k : Nat => dateOfIdx (monthIdx (effectiveFirstDue L) + (k : Int))
          L.paymentDueDate)) ∧
    (∀ p ∈ createPaymentSchedule L,
      p.amount = L.monthlyRent ∧ p.paymentType = PaymentType.rent ∧
      p.status = PaymentStatus.pending ∧ p.isRecurring = true ∧
      p.dueDate.day = L.paymentDueDate) ∧
    ((createPaymentSchedule exampleLease).map (fun p => (p.dueDate, p.amount)) =
      [(⟨2024, 2, 1⟩, 1000), (⟨2024, 3, 1⟩, 1000), (⟨2024, 4, 1⟩, 1000),
       (⟨2024, 5, 1⟩, 1000), (⟨2024, 6, 1⟩, 1000)]) := by
  obtain ⟨he1, he2, he3⟩ := effectiveFirstDue_canonical L hm1 hm2 hd2
  have hspec := scheduleDates_spec L.endDate (effectiveFirstDue L) he1 he2 (by omega)
  have hmapdue : (createPaymentSchedule L).map (fun p => p.dueDate) =
      scheduleDates L.endDate (effectiveFirstDue L) := by
    unfold createPaymentSchedule
    rw [List.map_map]
    have hfn : ((fun p : Payment => p.dueDate) ∘ rentPaymentOn L) = fun d => d := by
      funext d; rfl
    rw [hfn, List.map_id']
  have hlen0 : (createPaymentSchedule L).length =
      scheduleLen L.endDate (effectiveFirstDue L) := by
    unfold createPaymentSchedule
    rw [List.length_map, hspec, List.length_map, List.length_range]
  refine ⟨?_, ?_, ?_, by decide⟩
  · rw [hlen0]
    unfold scheduleLen monthsBetweenFloor
    rw [he3]
    split_ifs <;> omega
  · rw [hmapdue, hspec, hlen0, he3]
  · intro p hp
    obtain ⟨d, hd, rfl⟩ := List.mem_map.1 hp
    refine ⟨rfl, rfl, rfl, rfl, ?_⟩
    rw [hspec] at hd
    obtain ⟨k, _, rfl⟩ := List.mem_map.1 hd
    show (dateOfIdx _ _).day = _
    rw [dateOfIdx_day, he3]

/-- Witness for C1 at the spec's worked example. -/
theorem claim1_payment_schedule_witness :
    (1 ≤ exampleLease.startDate.month ∧ exampleLease.startDate.month ≤ 12 ∧
      exampleLease.paymentDueDate ≤ 28 ∧
      dateLe exampleLease.startDate exampleLease.endDate = true) ∧
    (createPaymentSchedule exampleLease).map (fun p => (p.dueDate, p.amount)) =
      [(⟨2024, 2, 1⟩, 1000), (⟨2024, 3, 1⟩, 1000), (⟨2024, 4, 1⟩, 1000),
       (⟨2024, 5, 1⟩, 1000), (⟨2024, 6, 1⟩, 1000)] :=
  ⟨by decide,
   (claim1_payment_schedule exampleLease (by decide) (by decide) (by decide)
     (by decide)).2.2.2⟩

/-- Counterexample to C1 as stated: with `paymentDueDate = 31` and
`startDate = 2024-01-31 ≤ endDate = 2024-04-30`, the generator emits
payments dated 2024-01-31, 2024-03-02 and 2024-04-02 — February is
skipped and the later due dates are not on day 31, because JS `setMonth`
overflows Feb 31 to Mar 2.  So the emitted due dates are not on
`paymentDueDate` of consecutive calendar months. -/
theorem claim1_counterexample :
    dateLe rolloverLease.startDate rolloverLease.endDate = true ∧
    (createPaymentSchedule rolloverLease).map (fun p => p.dueDate) =
      [⟨2024, 1, 31⟩, ⟨2024, 3, 2⟩, ⟨2024, 4, 2⟩] ∧
    ¬ (∀ p ∈ createPaymentSchedule rolloverLease,
        p.dueDate.day = rolloverLease.paymentDueDate) := by
  refine ⟨by decide, by decide, ?_⟩
  decide

/-- An active or pending lease on the request's property whose
`[startDate, endDate]` interval overlaps the request's interval, by the
route's test `existing.start ≤ new.end AND existing.end ≥ new.start`. -/
@[reducible] def overlapExists (db : DB) (inp : LeaseInput) : Prop :=
  ∃ L ∈ db.leases, L.property = inp.propertyId ∧
    (L.status = LeaseStatus.active ∨ L.status = LeaseStatus.pending) ∧
    dateLe L.startDate inp.endDate = true ∧ dateLe inp.startDate L.endDate = true

/-- No two distinct leases on the same property are both active/pending
with overlapping `[startDate, endDate]` intervals. -/
@[reducible] def noOverlapInv (leases : List Lease) : Prop :=
  ∀ L1 ∈ leases, ∀ L2 ∈ leases, L1.id ≠ L2.id → L1.property = L2.property →
    (L1.status = LeaseStatus.active ∨ L1.status = LeaseStatus.pending) →
    (L2.status = LeaseStatus.active ∨ L2.status = LeaseStatus.pending) →
    ¬ (dateLe L1.startDate L2.endDate = true ∧ dateLe L2.startDate L1.endDate = true)

/-- C2: creating a lease that overlaps an existing active/pending lease on
the same property answers 400 and leaves the store untouched; and lease
creation preserves the no-overlap invariant over persisted leases. -/
theorem claim2_lease_overlap (db : DB) (inp : LeaseInput) :
    (overlapExists db inp →
      (createLease db inp).2.code = 400 ∧ (createLease db inp).1 = db) ∧
    (noOverlapInv db.leases → noOverlapInv (createLease db inp).1.leases) := by
  unfold createLease
  cases hP : db.properties.find? (fun x => decide (x.id = inp.propertyId)) with
  | none => exact ⟨fun _ => ⟨rfl, rfl⟩, fun h => h⟩
  | some P =>
    cases hT : db.users.find? (fun u => decide (u.id = inp.tenantId)) with
    | none => exact ⟨fun _ => ⟨rfl, rfl⟩, fun h => h⟩
    | some T =>
      dsimp only
      by_cases hrole : T.role = Role.tenant
      · rw [if_pos hrole]
        cases hov : db.leases.find? (overlapCheck inp.propertyId inp.startDate inp.endDate) with
        | some L' => exact ⟨fun _ => ⟨rfl, rfl⟩, fun h => h⟩
        | none =>
          dsimp only
          constructor
          · intro hovex
            exfalso
            obtain ⟨L, hL, hprop, hstat, hs1, hs2⟩ := hovex
            have hfalse := find?_eq_none_forall hov L hL
            have htrue : overlapCheck inp.propertyId inp.startDate inp.endDate L = true := by
              unfold overlapCheck
              simp only [Bool.and_eq_true, Bool.or_eq_true, decide_eq_true_eq]
              exact ⟨⟨⟨hprop, hstat⟩, hs1⟩, hs2⟩
            rw [hfalse] at htrue
            exact Bool.false_ne_true htrue
          · intro hinv
            by_cases hval : leaseValid (leaseDataOf db.nextId P inp) = true
            · rw [if_pos hval]
              show noOverlapInv (insertManyPayments _ _).leases
              rw [insertManyPayments_leases]
              intro L1 h1 L2 h2 hid hprop hs1 hs2
              rcases List.mem_append.1 h1 with h1o | h1n
              · rcases List.mem_append.1 h2 with h2o | h2n
                · exact hinv L1 h1o L2 h2o hid hprop hs1 hs2
                · have h2e : L2 = leaseDataOf db.nextId P inp := List.mem_singleton.1 h2n
                  rintro ⟨hc1, hc2⟩
                  have hfalse := find?_eq_none_forall hov L1 h1o
                  have htrue : overlapCheck inp.propertyId inp.startDate inp.endDate L1
                      = true := by
                    unfold overlapCheck
                    simp only [Bool.and_eq_true, Bool.or_eq_true, decide_eq_true_eq]
                    refine ⟨⟨⟨?_, hs1⟩, ?_⟩, ?_⟩
                    · rw [hprop, h2e]; rfl
                    · rw [h2e] at hc1; exact hc1
                    · rw [h2e] at hc2; exact hc2
                  rw [hfalse] at htrue
                  exact Bool.false_ne_true htrue
              · rcases List.mem_append.1 h2 with h2o | h2n
                · have h1e : L1 = leaseDataOf db.nextId P inp := List.mem_singleton.1 h1n
                  rintro ⟨hc1, hc2⟩
                  have hfalse := find?_eq_none_forall hov L2 h2o
                  have htrue : overlapCheck inp.propertyId inp.startDate inp.endDate L2
                      = true := by
                    unfold overlapCheck
                    simp only [Bool.and_eq_true, Bool.or_eq_true, decide_eq_true_eq]
                    refine ⟨⟨⟨?_, hs2⟩, ?_⟩, ?_⟩
                    · rw [← hprop, h1e]; rfl
                    · rw [h1e] at hc2; exact hc2
                    · rw [h1e] at hc1; exact hc1
                  rw [hfalse] at htrue
                  exact Bool.false_ne_true htrue
                · have h1e := List.mem_singleton.1 h1n
                  have h2e := List.mem_singleton.1 h2n
                  rw [h1e, h2e] at hid
                  exact absurd rfl hid
            · rw [if_neg hval]
              exact hinv
      · rw [if_neg hrole]
        exact ⟨fun _ => ⟨rfl, rfl⟩, fun h => h⟩

/-- A store with one active lease on property 1 through 2024. -/
def overlapDb : DB :=
  { properties := [
      { id := 1, rentAmount := 1500, securityDeposit := 1500,
        status := PropStatus.occupied, currentTenant := some 2, currentLease := some 10 }],
    users := [
      { id := 2, role := Role.tenant, propertyId := some 1, leaseId := some 10 },
      { id := 3, role := Role.tenant, propertyId := none, leaseId := none }],
    leases := [
      { id := 10, property := 1, tenant := 2,
        startDate := ⟨2024, 1, 1⟩, endDate := ⟨2024, 12, 31⟩,
        monthlyRent := 1500, securityDeposit := 1500, status := LeaseStatus.active,
        leaseTerms := "existing", paymentDueDate := 1, lateFeeAmount := 50,
        lateFeeGracePeriod := 5, petDeposit := 0 }],
    payments := [], nextId := 11 }

/-- A lease request over property 1 whose dates overlap the active lease. -/
def overlapInput : LeaseInput :=
  { propertyId := 1, tenantId := 3,
    startDate := ⟨2024, 6, 1⟩, endDate := ⟨2025, 5, 31⟩,
    monthlyRent := none, securityDeposit := none, leaseTerms := "new",
    paymentDueDate := some 1, lateFee := none, petDeposit := none }

/-- Witness for C2: a concrete overlapping create is answered 400 with the
store unchanged. -/
theorem claim2_lease_overlap_witness :
    overlapExists overlapDb overlapInput ∧
    (createLease overlapDb overlapInput).2.code = 400 ∧
    (createLease overlapDb overlapInput).1 = overlapDb :=
  ⟨by decide, ((claim2_lease_overlap overlapDb overlapInput).1 (by decide)).1,
   ((claim2_lease_overlap overlapDb overlapInput).1 (by decide)).2⟩

lemma assessLateFee_of_late (db : DB) (p : Payment) (now : Date) (lid : Nat) (L : Lease)
    (hlease : p.lease = some lid)
    (hfind : db.leases.find? (fun x => decide (x.id = lid)) = some L)
    (hlt : dateLt p.dueDate now = true)
    (hdays : L.lateFeeGracePeriod < toDays now - toDays p.dueDate) :
    assessLateFee db p now = L.lateFeeAmount := by
  unfold assessLateFee
  rw [if_pos hlt, hlease]
  dsimp only
  rw [hfind]
  dsimp only
  rw [if_pos hdays]

lemma assessLateFee_zero (db : DB) (p : Payment) (now : Date)
    (h : dateLt p.dueDate now = false ∨ p.lease = none ∨
      (∃ lid L, p.lease = some lid ∧
        db.leases.find? (fun x => decide (x.id = lid)) = some L ∧
        toDays now - toDays p.dueDate ≤ L.lateFeeGracePeriod)) :
    assessLateFee db p now = 0 := by
  unfold assessLateFee
  rcases h with h | h | ⟨lid, L, hlease, hfind, hdays⟩
  · rw [if_neg (by simp [h])]
  · split_ifs
    · rw [h]
    · rfl
  · split_ifs
    · rw [hlease]
      dsimp only
      rw [hfind]
      dsimp only
      rw [if_neg (by omega)]
    · rfl

/-- Shape of the store after a successful settlement: the matched payment
is overwritten with its settled form (receipt hook applied), the response
is 200, and the late-fee row is appended exactly when the assessed fee is
positive. -/
lemma pay_found_settled (db : DB) (now : Date) (pid : Nat) (body : PayBody)
    (fresh1 fresh2 : String) (p : Payment)
    (h : db.payments.find? (fun q => decide (q.id = pid)) = some p) :
    (pay db now pid body fresh1 fresh2).1.payments.find? (fun r => decide (r.id = pid)) =
      some (receiptHook (settledPayment db p body now) fresh1) ∧
    (pay db now pid body fresh1 fresh2).2.code = 200 ∧
    (0 < assessLateFee db p now →
      (pay db now pid body fresh1 fresh2).1.payments =
        updateWhere db.payments (fun q => decide (q.id = pid))
            (fun _ => receiptHook (settledPayment db p body now) fresh1)
          ++ [receiptHook (lateFeeRowOf db.nextId p body now (assessLateFee db p now)) fresh2]) ∧
    (¬ 0 < assessLateFee db p now →
      (pay db now pid body fresh1 fresh2).1.payments =
        updateWhere db.payments (fun q => decide (q.id = pid))
          (fun _ => receiptHook (settledPayment db p body now) fresh1)) := by
  have hpid : p.id = pid := by
    have h2 := List.find?_some h
    simpa using h2
  have hqid : (receiptHook (settledPayment db p body now) fresh1).id = pid := by
    rw [receiptHook_id]
    exact hpid
  have hupd : (updateWhere db.payments (fun q => decide (q.id = pid))
      (fun _ => receiptHook (settledPayment db p body now) fresh1)).find?
      (fun r => decide (r.id = pid)) =
      some (receiptHook (settledPayment db p body now) fresh1) := by
    rw [find?_updateWhere _ _ _
      (fun x _ => by simp only [decide_eq_true_eq]; exact hqid), h]
    rfl
  unfold pay
  rw [h]
  dsimp only
  split_ifs with hfee
  · exact ⟨find?_append_of_some _ hupd, rfl, fun _ => rfl, fun hc => absurd hfee hc⟩
  · exact ⟨hupd, rfl, fun hc => absurd hc hfee, fun _ => rfl⟩

/-- C3 (amended): settling a payment past its due date, whose lease is more
than `gracePeriod` days overdue and carries a positive `lateFee.amount`,
stores that amount as the payment's late fee and appends exactly one
synthetic late-fee row with the advertised fields; settling on time,
within the grace period, or with no associated lease stores fee 0 and
appends nothing. -/
theorem claim3_late_fee (db : DB) (now : Date) (pid : Nat) (body : PayBody)
    (fresh1 fresh2 : String) (p : Payment)
    (h : db.payments.find? (fun q => decide (q.id = pid)) = some p) :
    (∀ lid L, p.lease = some lid →
      db.leases.find? (fun x => decide (x.id = lid)) = some L →
      dateLt p.dueDate now = true →
      L.lateFeeGracePeriod < toDays now - toDays p.dueDate →
      0 < L.lateFeeAmount →
      ((pay db now pid body fresh1 fresh2).1.payments.find?
          (fun r => decide (r.id = pid))).map (fun q => q.lateFee) = some L.lateFeeAmount ∧
      (pay db now pid body fresh1 fresh2).1.payments.length = db.payments.length + 1 ∧
      ∃ q ∈ (pay db now pid body fresh1 fresh2).1.payments,
        q.paymentType = PaymentType.late_fee ∧ q.status = PaymentStatus.completed ∧
        q.dueDate = now ∧ q.paidDate = some now ∧ q.amount = L.lateFeeAmount ∧
        q.lease = p.lease ∧ q.tenant = p.tenant ∧ q.property = p.property ∧
        q.transactionId = some (body.transactionId ++ "_LATE")) ∧
    ((dateLt p.dueDate now = false ∨ p.lease = none ∨
      (∃ lid L, p.lease = some lid ∧
        db.leases.find? (fun x => decide (x.id = lid)) = some L ∧
        toDays now - toDays p.dueDate ≤ L.lateFeeGracePeriod)) →
      ((pay db now pid body fresh1 fresh2).1.payments.find?
          (fun r => decide (r.id = pid))).map (fun q => q.lateFee) = some 0 ∧
      (pay db now pid body fresh1 fresh2).1.payments.length = db.payments.length) := by
  obtain ⟨hfind, hcode, himp1, himp2⟩ := pay_found_settled db now pid body fresh1 fresh2 p h
  constructor
  · intro lid L hlease hlfind hlt hdays hamt
    have hfee := assessLateFee_of_late db p now lid L hlease hlfind hlt hdays
    have hpos : 0 < assessLateFee db p now := by rw [hfee]; exact hamt
    have hpays := himp1 hpos
    refine ⟨?_, ?_, ?_⟩
    · rw [hfind]
      have hlf : (receiptHook (settledPayment db p body now) fresh1).lateFee =
          L.lateFeeAmount := by
        rw [receiptHook_lateFee]
        show assessLateFee db p now = L.lateFeeAmount
        exact hfee
      simp [hlf]
    · rw [hpays, List.length_append, length_updateWhere]
      rfl
    · refine ⟨receiptHook (lateFeeRowOf db.nextId p body now (assessLateFee db p now)) fresh2,
        ?_, ?_, ?_, ?_, ?_, ?_, ?_, ?_, ?_, ?_⟩
      · rw [hpays]
        exact List.mem_append_right _ (List.mem_singleton.2 rfl)
      · rw [receiptHook_paymentType]; rfl
      · rw [receiptHook_status]; rfl
      · rw [receiptHook_dueDate]; rfl
      · rw [receiptHook_paidDate]; rfl
      · rw [receiptHook_amount]
        show assessLateFee db p now = L.lateFeeAmount
        exact hfee
      · rw [receiptHook_lease]; rfl
      · rw [receiptHook_tenant]; rfl
      · rw [receiptHook_property]; rfl
      · rw [receiptHook_transactionId]; rfl
  · intro hz
    have hfee := assessLateFee_zero db p now hz
    have hneg : ¬ 0 < assessLateFee db p now := by rw [hfee]; omega
    have hpays := himp2 hneg
    constructor
    · rw [hfind]
      have hlf : (receiptHook (settledPayment db p body now) fresh1).lateFee = 0 := by
        rw [receiptHook_lateFee]
        show assessLateFee db p now = 0
        exact hfee
      simp [hlf]
    · rw [hpays, length_updateWhere]

/-- A lease with late-fee amount 50 and a 5-day grace period. -/
def feeLease : Lease :=
  { id := 20, property := 1, tenant := 2,
    startDate := ⟨2024, 1, 1⟩, endDate := ⟨2024, 12, 31⟩,
    monthlyRent := 1000, securityDeposit := 1000, status := LeaseStatus.active,
    leaseTerms := "active lease", paymentDueDate := 1, lateFeeAmount := 50,
    lateFeeGracePeriod := 5, petDeposit := 0 }

/-- A pending rent payment on `feeLease`, due 2024-01-01. -/
def feePayment : Payment :=
  { id := 1, lease := some 20, tenant := 2, property := 1, amount := 1000,
    paymentType := PaymentType.rent, paymentMethod := "cash",
    status := PaymentStatus.pending, dueDate := ⟨2024, 1, 1⟩, paidDate := none,
    lateFee := 0, description := "January rent", transactionId := none,
    receiptNumber := none, notes := "", isRecurring := true }

/-- Store holding `feeLease` and its pending `feePayment`. -/
def feeDb : DB :=
  { properties := [
      { id := 1, rentAmount := 1000, securityDeposit := 1000,
        status := PropStatus.occupied, currentTenant := some 2, currentLease := some 20 }],
    users := [{ id := 2, role := Role.tenant, propertyId := some 1, leaseId := some 20 }],
    leases := [feeLease],
    payments := [feePayment],
    nextId := 30 }

/-- The same store with the lease's late-fee amount set to 0. -/
def zeroFeeDb : DB :=
  { properties := [
      { id := 1, rentAmount := 1000, securityDeposit := 1000,
        status := PropStatus.occupied, currentTenant := some 2, currentLease := some 20 }],
    users := [{ id := 2, role := Role.tenant, propertyId := some 1, leaseId := some 20 }],
    leases := [{ feeLease with lateFeeAmount := 0 }],
    payments := [feePayment],
    nextId := 30 }

/-- A settlement request body. -/
def lateBody : PayBody :=
  { paymentMethod := "cash", transactionId := "TX1", notes := none, paidAmount := none }

/-- Witness for C3: settling `feePayment` on 2024-01-20 (19 days late,
grace 5) stores fee 50 and appends exactly one late-fee row. -/
theorem claim3_late_fee_witness :
    feeDb.payments.find? (fun q => decide (q.id = 1)) = some feePayment ∧
    ((pay feeDb ⟨2024, 1, 20⟩ 1 lateBody "rcp1" "rcp2").1.payments.find?
        (fun r => decide (r.id = 1))).map (fun q => q.lateFee) = some 50 ∧
    (pay feeDb ⟨2024, 1, 20⟩ 1 lateBody "rcp1" "rcp2").1.payments.length =
      feeDb.payments.length + 1 :=
  ⟨by decide,
   (((claim3_late_fee feeDb ⟨2024, 1, 20⟩ 1 lateBody "rcp1" "rcp2" feePayment
       (by decide)).1 20 feeLease (by decide) (by decide) (by decide) (by decide)
       (by decide))).1,
   (((claim3_late_fee feeDb ⟨2024, 1, 20⟩ 1 lateBody "rcp1" "rcp2" feePayment
       (by decide)).1 20 feeLease (by decide) (by decide) (by decide) (by decide)
       (by decide))).2.1⟩

/-- Counterexample to C3 as stated: with the lease's `lateFee.amount = 0`,
settling a payment 19 days late (grace 5) stores fee 0 — equal to
`lease.lateFee.amount` — but creates NO additional late-fee row, because
the route only creates the synthetic row `if (lateFee > 0)`.  The claim's
unconditional "exactly one additional synthetic Payment row" is false. -/
theorem claim3_counterexample :
    dateLt feePayment.dueDate ⟨2024, 1, 20⟩ = true ∧
    (∃ L, zeroFeeDb.leases.find? (fun x => decide (x.id = 20)) = some L ∧
      L.lateFeeGracePeriod < toDays ⟨2024, 1, 20⟩ - toDays feePayment.dueDate) ∧
    (pay zeroFeeDb ⟨2024, 1, 20⟩ 1 lateBody "rcp1" "rcp2").1.payments.length =
      zeroFeeDb.payments.length := by
  refine ⟨by decide, ⟨{ feeLease with lateFeeAmount := 0 }, by decide, by decide⟩, by decide⟩

/-- Receipt numbers are pairwise distinct across documents: two payments
carrying the same non-null receipt number are the same document. -/
@[reducible] def receiptsUnique (xs : List Payment) : Prop :=
  ∀ q1 ∈ xs, ∀ q2 ∈ xs, q1.receiptNumber ≠ none → q1.receiptNumber = q2.receiptNumber →
    q1.id = q2.id

/-- C4: the pre-save hook never reassigns an existing receipt number,
assigns one exactly when the payment is completed and has none, and a
save accepted by the unique sparse index preserves global uniqueness of
receipt numbers. -/
theorem claim4_receipt_number (xs : List Payment) (p : Payment) (fresh : String)
    (hu : receiptsUnique xs) :
    (p.receiptNumber ≠ none → receiptHook p fresh = p) ∧
    (p.receiptNumber = none → p.status ≠ PaymentStatus.completed →
      (receiptHook p fresh).receiptNumber = none) ∧
    (p.receiptNumber = none → p.status = PaymentStatus.completed →
      (receiptHook p fresh).receiptNumber = some fresh) ∧
    (∀ ys, savePayment xs p fresh = some ys → receiptsUnique ys) := by
  refine ⟨?_, ?_, ?_, ?_⟩
  · intro hn
    unfold receiptHook
    rw [if_neg (by tauto)]
  · intro hn hs
    unfold receiptHook
    rw [if_neg (by tauto)]
    exact hn
  · intro hn hs
    unfold receiptHook
    rw [if_pos ⟨hn, hs⟩]
  · intro ys hys
    unfold savePayment at hys
    dsimp only at hys
    split_ifs at hys with hcol hex
    · have hupdeq : updateWhere xs (fun r => decide (r.id = (receiptHook p fresh).id))
          (fun _ => receiptHook p fresh) = ys := by
        first
          | exact hys
          | exact Option.some.inj hys
      rw [← hupdeq]
      intro q1 h1 q2 h2 hn he
      obtain ⟨x1, hx1, heq1⟩ := mem_updateWhere_src h1
      obtain ⟨x2, hx2, heq2⟩ := mem_updateWhere_src h2
      by_cases hid1 : decide (x1.id = (receiptHook p fresh).id) = true
      · rw [if_pos hid1] at heq1
        by_cases hid2 : decide (x2.id = (receiptHook p fresh).id) = true
        · rw [if_pos hid2] at heq2
          rw [heq1, heq2]
        · rw [if_neg hid2] at heq2
          exfalso
          apply hcol
          subst heq1
          subst heq2
          refine ⟨hn, q2, hx2, ?_, he.symm⟩
          intro hc
          exact hid2 (decide_eq_true hc)
      · rw [if_neg hid1] at heq1
        by_cases hid2 : decide (x2.id = (receiptHook p fresh).id) = true
        · rw [if_pos hid2] at heq2
          exfalso
          apply hcol
          subst heq1
          subst heq2
          refine ⟨by rw [← he]; exact hn, q1, hx1, ?_, he⟩
          intro hc
          exact hid1 (decide_eq_true hc)
        · rw [if_neg hid2] at heq2
          subst heq1
          subst heq2
          exact hu q1 hx1 q2 hx2 hn he
    · have happeq : xs ++ [receiptHook p fresh] = ys := by
        first
          | exact hys
          | exact Option.some.inj hys
      rw [← happeq]
      intro q1 h1 q2 h2 hn he
      rcases List.mem_append.1 h1 with h1o | h1n
      · rcases List.mem_append.1 h2 with h2o | h2n
        · exact hu q1 h1o q2 h2o hn he
        · have h2e : q2 = receiptHook p fresh := List.mem_singleton.1 h2n
          exfalso
          apply hcol
          subst h2e
          refine ⟨by rw [← he]; exact hn, q1, h1o, ?_, he⟩
          intro hc
          exact hex ⟨q1, h1o, hc⟩
      · have h1e : q1 = receiptHook p fresh := List.mem_singleton.1 h1n
        rcases List.mem_append.1 h2 with h2o | h2n
        · exfalso
          apply hcol
          subst h1e
          refine ⟨hn, q2, h2o, ?_, he.symm⟩
          intro hc
          exact hex ⟨q2, h2o, hc⟩
        · have h2e : q2 = receiptHook p fresh := List.mem_singleton.1 h2n
          rw [h1e, h2e]

/-- A completed payment that has not yet received a receipt number. -/
def completedNoReceipt : Payment :=
  { feePayment with id := 5, status := PaymentStatus.completed }

/-- Witness for C4 on the concrete store `feeDb`. -/
theorem claim4_receipt_number_witness :
    receiptsUnique feeDb.payments ∧
    completedNoReceipt.receiptNumber = none ∧
    (receiptHook completedNoReceipt "RCP-1700000000000-A1B2C3D4E").receiptNumber =
      some "RCP-1700000000000-A1B2C3D4E" :=
  ⟨by decide, by decide,
   (claim4_receipt_number feeDb.payments completedNoReceipt "RCP-1700000000000-A1B2C3D4E"
     (by decide)).2.2.1 (by decide) (by decide)⟩

/-- Shape of the store after a successful lease creation: the response is
201, the lease is appended, the property and tenant cross-references are
written — and the payments collection is untouched, because the generated
schedule's `insertMany` always fails validation (see
`insertManyPayments_schedule`). -/
lemma createLease_success (db : DB) (inp : LeaseInput) (P : Property) (T : User)
    (hP : db.properties.find? (fun x => decide (x.id = inp.propertyId)) = some P)
    (hT : db.users.find? (fun u => decide (u.id = inp.tenantId)) = some T)
    (hrole : T.role = Role.tenant)
    (hov : db.leases.find? (overlapCheck inp.propertyId inp.startDate inp.endDate) = none)
    (hval : leaseValid (leaseDataOf db.nextId P inp) = true) :
    (createLease db inp).2 = ⟨201, "Lease created successfully"⟩ ∧
    (createLease db inp).1.leases = db.leases ++ [leaseDataOf db.nextId P inp] ∧
    (createLease db inp).1.payments = db.payments ∧
    (createLease db inp).1.properties = updateWhere db.properties
      (fun x => decide (x.id = inp.propertyId))
      (fun x => { x with
        currentLease := some (leaseDataOf db.nextId P inp).id,
        currentTenant := some inp.tenantId,
        status := PropStatus.occupied }) ∧
    (createLease db inp).1.users = updateWhere db.users (fun u => decide (u.id = inp.tenantId))
      (fun u => { u with
        leaseId := some (leaseDataOf db.nextId P inp).id,
        propertyId := some inp.propertyId }) := by
  unfold createLease
  rw [hP]
  dsimp only
  rw [hT]
  dsimp only
  rw [if_pos hrole, hov]
  dsimp only
  rw [if_pos hval]
  refine ⟨rfl, ?_, ?_, ?_, ?_⟩
  · rw [insertManyPayments_leases]
  · rw [insertManyPayments_schedule]
  · rw [insertManyPayments_properties]
  · rw [insertManyPayments_users]

/-- C5: when schedule generation fails during lease creation (as it in
fact always does — the scheduled rows carry the out-of-enum
`paymentMethod: 'pending'`, so the batch insert is rejected and the error
swallowed), the persisted lease and the property/tenant cross-reference
updates are not rolled back: the operation still answers 201, the lease
stays persisted, and zero scheduled payments exist (the payments
collection is unchanged). -/
theorem claim5_no_rollback (db : DB) (inp : LeaseInput) (P : Property) (T : User)
    (hP : db.properties.find? (fun x => decide (x.id = inp.propertyId)) = some P)
    (hT : db.users.find? (fun u => decide (u.id = inp.tenantId)) = some T)
    (hrole : T.role = Role.tenant)
    (hov : db.leases.find? (overlapCheck inp.propertyId inp.startDate inp.endDate) = none)
    (hval : leaseValid (leaseDataOf db.nextId P inp) = true) :
    (createLease db inp).2.code = 201 ∧
    leaseDataOf db.nextId P inp ∈ (createLease db inp).1.leases ∧
    (createLease db inp).1.payments = db.payments ∧
    (∀ x ∈ (createLease db inp).1.properties, x.id = inp.propertyId →
      x.currentLease = some db.nextId ∧ x.currentTenant = some inp.tenantId ∧
      x.status = PropStatus.occupied) ∧
    (∀ u ∈ (createLease db inp).1.users, u.id = inp.tenantId →
      u.leaseId = some db.nextId ∧ u.propertyId = some inp.propertyId) := by
  obtain ⟨hresp, hleases, hpay, hprops, husers⟩ :=
    createLease_success db inp P T hP hT hrole hov hval
  refine ⟨by rw [hresp], ?_, hpay, ?_, ?_⟩
  · rw [hleases]
    exact List.mem_append_right _ (List.mem_singleton.2 rfl)
  · intro x hx hxid
    rw [hprops] at hx
    obtain ⟨x0, hx0, heq⟩ := mem_updateWhere_src hx
    by_cases hid : decide (x0.id = inp.propertyId) = true
    · rw [if_pos hid] at heq
      subst heq
      exact ⟨rfl, rfl, rfl⟩
    · rw [if_neg hid] at heq
      subst heq
      exact absurd (decide_eq_true hxid) hid
  · intro u hu huid
    rw [husers] at hu
    obtain ⟨u0, hu0, heq⟩ := mem_updateWhere_src hu
    by_cases hid : decide (u0.id = inp.tenantId) = true
    · rw [if_pos hid] at heq
      subst heq
      exact ⟨rfl, rfl⟩
    · rw [if_neg hid] at heq
      subst heq
      exact absurd (decide_eq_true huid) hid

/-- A store with a free property 1 and unhoused tenant 2. -/
def createDb : DB :=
  { properties := [
      { id := 1, rentAmount := 900, securityDeposit := 900,
        status := PropStatus.available, currentTenant := none, currentLease := none }],
    users := [{ id := 2, role := Role.tenant, propertyId := none, leaseId := none }],
    leases := [], payments := [], nextId := 7 }

/-- The property document of `createDb`. -/
def createProp : Property :=
  { id := 1, rentAmount := 900, securityDeposit := 900,
    status := PropStatus.available, currentTenant := none, currentLease := none }

/-- The tenant document of `createDb`. -/
def createTenant : User :=
  { id := 2, role := Role.tenant, propertyId := none, leaseId := none }

/-- A well-formed lease request for `createDb`. -/
def createInput : LeaseInput :=
  { propertyId := 1, tenantId := 2,
    startDate := ⟨2024, 1, 15⟩, endDate := ⟨2024, 6, 15⟩,
    monthlyRent := some 1000, securityDeposit := some 1000, leaseTerms := "lease",
    paymentDueDate := some 1, lateFee := none, petDeposit := none }

/-- Witness for C5 at a concrete creation: 201, lease persisted, and the
payments collection unchanged (zero scheduled payments). -/
theorem claim5_no_rollback_witness :
    (createLease createDb createInput).2.code = 201 ∧
    leaseDataOf createDb.nextId createProp createInput ∈
      (createLease createDb createInput).1.leases ∧
    (createLease createDb createInput).1.payments = createDb.payments :=
  ⟨(claim5_no_rollback createDb createInput createProp createTenant (by decide) (by decide)
      (by decide) (by decide) (by decide)).1,
   (claim5_no_rollback createDb createInput createProp createTenant (by decide) (by decide)
      (by decide) (by decide) (by decide)).2.1,
   (claim5_no_rollback createDb createInput createProp createTenant (by decide) (by decide)
      (by decide) (by decide) (by decide)).2.2.1⟩

/-- C6: terminating an existing lease answers 200, marks the lease
terminated, clears the property's `currentTenant`/`currentLease` and sets
it available, clears the tenant's back-references — and leaves every
Payment row untouched, regardless of outstanding pending payments. -/
theorem claim6_terminate_frame (db : DB) (lid : Nat) (L : Lease)
    (hL : db.leases.find? (fun x => decide (x.id = lid)) = some L) :
    (terminate db lid).2.code = 200 ∧
    (∀ x ∈ (terminate db lid).1.leases, x.id = lid → x.status = LeaseStatus.terminated) ∧
    (∀ Q ∈ (terminate db lid).1.properties, Q.id = L.property →
      Q.currentTenant = none ∧ Q.currentLease = none ∧ Q.status = PropStatus.available) ∧
    (∀ u ∈ (terminate db lid).1.users, u.id = L.tenant →
      u.propertyId = none ∧ u.leaseId = none) ∧
    (terminate db lid).1.payments = db.payments := by
  unfold terminate
  rw [hL]
  dsimp only
  refine ⟨rfl, ?_, ?_, ?_, rfl⟩
  · intro x hx hxid
    obtain ⟨x0, hx0, heq⟩ := mem_updateWhere_src hx
    by_cases hid : decide (x0.id = lid) = true
    · rw [if_pos hid] at heq
      subst heq
      rfl
    · rw [if_neg hid] at heq
      subst heq
      exact absurd (decide_eq_true hxid) hid
  · intro Q hQ hQid
    obtain ⟨Q0, hQ0, heq⟩ := mem_updateWhere_src hQ
    by_cases hid : decide (Q0.id = L.property) = true
    · rw [if_pos hid] at heq
      subst heq
      exact ⟨rfl, rfl, rfl⟩
    · rw [if_neg hid] at heq
      subst heq
      exact absurd (decide_eq_true hQid) hid
  · intro u hu huid
    obtain ⟨u0, hu0, heq⟩ := mem_updateWhere_src hu
    by_cases hid : decide (u0.id = L.tenant) = true
    · rw [if_pos hid] at heq
      subst heq
      exact ⟨rfl, rfl⟩
    · rw [if_neg hid] at heq
      subst heq
      exact absurd (decide_eq_true huid) hid

/-- Witness for C6: terminating lease 20 of `feeDb`, which still has a
pending payment, leaves the payments collection unchanged. -/
theorem claim6_terminate_frame_witness :
    feeDb.leases.find? (fun x => decide (x.id = 20)) = some feeLease ∧
    (terminate feeDb 20).2.code = 200 ∧
    (terminate feeDb 20).1.payments = feeDb.payments :=
  ⟨by decide, (claim6_terminate_frame feeDb 20 feeLease (by decide)).1,
   (claim6_terminate_frame feeDb 20 feeLease (by decide)).2.2.2.2⟩

/-- C7 (amended): a supplied NONZERO `paymentDueDate` outside 1–31 fails
the Mongoose min/max validators on `lease.save()`, surfacing as the
route's catch-all 500 with nothing persisted; a supplied in-range value is
accepted and stored as given.  (A supplied `0` is falsy, so
`paymentDueDate || 1` silently replaces it with the default 1 and the
lease is persisted — see the counterexample.) -/
theorem claim7_due_date_validation (db : DB) (inp : LeaseInput) (P : Property) (T : User)
    (hP : db.properties.find? (fun x => decide (x.id = inp.propertyId)) = some P)
    (hT : db.users.find? (fun u => decide (u.id = inp.tenantId)) = some T)
    (hrole : T.role = Role.tenant)
    (hov : db.leases.find? (overlapCheck inp.propertyId inp.startDate inp.endDate) = none) :
    (∀ d : Int, inp.paymentDueDate = some d → d ≠ 0 → ¬ (1 ≤ d ∧ d ≤ 31) →
      (createLease db inp).2.code = 500 ∧ (createLease db inp).1 = db) ∧
    (∀ d : Int, inp.paymentDueDate = some d → 1 ≤ d → d ≤ 31 →
      leaseValid (leaseDataOf db.nextId P inp) = true →
      (createLease db inp).2.code = 201 ∧
      ∃ L ∈ (createLease db inp).1.leases, L.id = db.nextId ∧ L.paymentDueDate = d) := by
  constructor
  · intro d hd hdnz hout
    have hdue : (leaseDataOf db.nextId P inp).paymentDueDate = d := by
      show jsOrNum inp.paymentDueDate 1 = d
      rw [hd]
      unfold jsOrNum
      dsimp only
      rw [if_neg hdnz]
    have hval : leaseValid (leaseDataOf db.nextId P inp) = false := by
      unfold leaseValid
      rw [hdue]
      rcases (by tauto : ¬ 1 ≤ d ∨ ¬ d ≤ 31) with hb | hb
      · simp [decide_eq_false hb]
      · simp [decide_eq_false hb]
    unfold createLease
    rw [hP]
    dsimp only
    rw [hT]
    dsimp only
    rw [if_pos hrole, hov]
    dsimp only
    rw [if_neg (by simp [hval])]
    exact ⟨rfl, rfl⟩
  · intro d hd hd1 hd31 hval
    obtain ⟨hresp, hleases, _, _, _⟩ := createLease_success db inp P T hP hT hrole hov hval
    have hdue : (leaseDataOf db.nextId P inp).paymentDueDate = d := by
      show jsOrNum inp.paymentDueDate 1 = d
      rw [hd]
      unfold jsOrNum
      dsimp only
      rw [if_neg (by omega : ¬ d = 0)]
    refine ⟨by rw [hresp], leaseDataOf db.nextId P inp, ?_, rfl, hdue⟩
    rw [hleases]
    exact List.mem_append_right _ (List.mem_singleton.2 rfl)

/-- The lease request with an out-of-range due day 45. -/
def dueFortyFiveInput : LeaseInput :=
  { createInput with paymentDueDate := some 45 }

/-- Witness for C7: supplying due day 45 is rejected (500, nothing
persisted); the in-range day 1 of `createInput` is accepted and stored. -/
theorem claim7_due_date_validation_witness :
    ((createLease createDb dueFortyFiveInput).2.code = 500 ∧
      (createLease createDb dueFortyFiveInput).1 = createDb) ∧
    ((createLease createDb createInput).2.code = 201 ∧
      ∃ L ∈ (createLease createDb createInput).1.leases,
        L.id = createDb.nextId ∧ L.paymentDueDate = 1) :=
  ⟨(claim7_due_date_validation createDb dueFortyFiveInput createProp createTenant
      (by decide) (by decide) (by decide) (by decide)).1 45 (by decide) (by decide)
      (by decide),
   (claim7_due_date_validation createDb createInput createProp createTenant
      (by decide) (by decide) (by decide) (by decide)).2 1 (by decide) (by decide)
      (by decide) (by decide)⟩

/-- The lease request that supplies the out-of-range due day 0. -/
def dueZeroInput : LeaseInput :=
  { createInput with paymentDueDate := some 0 }

/-- Counterexample to C7 as stated: `paymentDueDate = 0` is supplied and
outside 1–31, yet the request is NOT rejected — `paymentDueDate || 1`
treats 0 as falsy, substitutes the default 1, and the lease is persisted
with due day 1 under a 201 response. -/
theorem claim7_counterexample :
    dueZeroInput.paymentDueDate = some 0 ∧
    ¬ (1 ≤ (0 : Int) ∧ (0 : Int) ≤ 31) ∧
    (createLease createDb dueZeroInput).2.code = 201 ∧
    ∃ L ∈ (createLease createDb dueZeroInput).1.leases,
      L.id = createDb.nextId ∧ L.paymentDueDate = 1 := by decide

/-- The lease request whose `endDate` precedes its `startDate`. -/
def badRangeInput : LeaseInput :=
  { propertyId := 1, tenantId := 2,
    startDate := ⟨2024, 6, 15⟩, endDate := ⟨2024, 1, 10⟩,
    monthlyRent := some 1000, securityDeposit := some 1000, leaseTerms := "reversed",
    paymentDueDate := some 1, lateFee := none, petDeposit := none }

/-- Counterexample to C8 as stated: `POST /api/leases` performs no
date-range validation, so a lease with `endDate < startDate` is NOT
rejected with 400 — it is persisted and answered 201 (with valid
property/tenant and no overlapping lease). -/
theorem claim8_counterexample :
    dateLt badRangeInput.endDate badRangeInput.startDate = true ∧
    (createLease createDb badRangeInput).2.code = 201 ∧
    ∃ L ∈ (createLease createDb badRangeInput).1.leases,
      L.startDate = ⟨2024, 6, 15⟩ ∧ L.endDate = ⟨2024, 1, 10⟩ := by decide

/-- C8 (amended): creating a lease with `endDate` earlier than `startDate`
is not rejected — no date-range check exists, so with a valid property and
tenant, no overlapping active/pending lease, and otherwise schema-valid
fields, the request succeeds with 201 and the reversed-interval lease is
persisted. -/
theorem claim8_bad_date_range (db : DB) (inp : LeaseInput) (P : Property) (T : User)
    (hP : db.properties.find? (fun x => decide (x.id = inp.propertyId)) = some P)
    (hT : db.users.find? (fun u => decide (u.id = inp.tenantId)) = some T)
    (hrole : T.role = Role.tenant)
    (hov : db.leases.find? (overlapCheck inp.propertyId inp.startDate inp.endDate) = none)
    (hval : leaseValid (leaseDataOf db.nextId P inp) = true)
    (hbad : dateLt inp.endDate inp.startDate = true) :
    (createLease db inp).2.code = 201 ∧
    leaseDataOf db.nextId P inp ∈ (createLease db inp).1.leases := by
  obtain ⟨hresp, hleases, _, _, _⟩ := createLease_success db inp P T hP hT hrole hov hval
  refine ⟨by rw [hresp], ?_⟩
  rw [hleases]
  exact List.mem_append_right _ (List.mem_singleton.2 rfl)

/-- Witness for C8 (amended) at the concrete reversed-range request. -/
theorem claim8_bad_date_range_witness :
    dateLt badRangeInput.endDate badRangeInput.startDate = true ∧
    (createLease createDb badRangeInput).2.code = 201 ∧
    leaseDataOf createDb.nextId createProp badRangeInput ∈
      (createLease createDb badRangeInput).1.leases :=
  ⟨by decide,
   (claim8_bad_date_range createDb badRangeInput createProp createTenant (by decide)
     (by decide) (by decide) (by decide) (by decide) (by decide)).1,
   (claim8_bad_date_range createDb badRangeInput createProp createTenant (by decide)
     (by decide) (by decide) (by decide) (by decide) (by decide)).2⟩

/-- C9 (amended): on settlement the payment's `status` is forced to
completed, and `amount` is overridden to `paidAmount` exactly when a
NONZERO `paidAmount` is supplied; an absent `paidAmount` — and, by JS
falsy semantics of `paidAmount || payment.amount`, a supplied 0 — leaves
the amount unchanged. -/
theorem claim9_paid_amount (db : DB) (now : Date) (pid : Nat) (body : PayBody)
    (fresh1 fresh2 : String) (p : Payment)
    (h : db.payments.find? (fun q => decide (q.id = pid)) = some p) :
    ∃ q, (pay db now pid body fresh1 fresh2).1.payments.find?
        (fun r => decide (r.id = pid)) = some q ∧
      q.status = PaymentStatus.completed ∧
      (∀ a : Int, body.paidAmount = some a → a ≠ 0 → q.amount = a) ∧
      (body.paidAmount = none → q.amount = p.amount) ∧
      (body.paidAmount = some 0 → q.amount = p.amount) := by
  obtain ⟨hfind, _, _, _⟩ := pay_found_settled db now pid body fresh1 fresh2 p h
  refine ⟨_, hfind, ?_, ?_, ?_, ?_⟩
  · rw [receiptHook_status]
    rfl
  · intro a ha hnz
    rw [receiptHook_amount]
    show jsOrNum body.paidAmount p.amount = a
    rw [ha]
    unfold jsOrNum
    dsimp only
    rw [if_neg hnz]
  · intro ha
    rw [receiptHook_amount]
    show jsOrNum body.paidAmount p.amount = p.amount
    rw [ha]
    rfl
  · intro ha
    rw [receiptHook_amount]
    show jsOrNum body.paidAmount p.amount = p.amount
    rw [ha]
    unfold jsOrNum
    dsimp only
    rw [if_pos rfl]

/-- A settlement body supplying the falsy `paidAmount = 0`. -/
def zeroAmountBody : PayBody :=
  { paymentMethod := "cash", transactionId := "TX2", notes := none, paidAmount := some 0 }

/-- Counterexample to C9 as stated: `paidAmount = 0` IS supplied in the
request, yet the settled payment keeps its original amount 1000 — the
route computes `paidAmount || payment.amount` and 0 is falsy. -/
theorem claim9_counterexample :
    zeroAmountBody.paidAmount = some 0 ∧
    feePayment.amount = 1000 ∧
    ((pay feeDb ⟨2024, 1, 2⟩ 1 zeroAmountBody "r1" "r2").1.payments.find?
        (fun r => decide (r.id = 1))).map (fun q => q.amount) = some 1000 := by decide

/-- A settlement body supplying a nonzero adjusted amount. -/
def partialBody : PayBody :=
  { paymentMethod := "cash", transactionId := "TX3", notes := none, paidAmount := some 800 }

/-- Witness for C9: a supplied nonzero `paidAmount = 800` overrides the
amount while the status is forced to completed. -/
theorem claim9_paid_amount_witness :
    feeDb.payments.find? (fun q => decide (q.id = 1)) = some feePayment ∧
    ∃ q, (pay feeDb ⟨2024, 1, 2⟩ 1 partialBody "r1" "r2").1.payments.find?
        (fun r => decide (r.id = 1)) = some q ∧
      q.status = PaymentStatus.completed ∧ q.amount = 800 := by
  obtain ⟨q, hq, hst, hova, _, _⟩ :=
    claim9_paid_amount feeDb ⟨2024, 1, 2⟩ 1 partialBody "r1" "r2" feePayment (by decide)
  exact ⟨by decide, q, hq, hst, hova 800 rfl (by decide)⟩

/-- A second settlement body with a distinct transaction id. -/
def repeatBody : PayBody :=
  { paymentMethod := "bank_transfer", transactionId := "TX9", notes := some "again",
    paidAmount := none }

/-- C10 (amended): settlement fails only when no payment with the id
exists (404, store untouched); an existing payment — in any status,
including already completed — is settled again with 200, its
`paidDate/paymentMethod/transactionId/notes` overwritten, and when it is
overdue past the grace period of a lease with a nonzero late-fee amount an
additional synthetic late-fee row is appended on every call.  The closing
conjunct runs the concrete double settlement: the second call on the
already-completed payment succeeds and appends yet another late-fee row —
settlement is not idempotent. -/
theorem claim10_settlement_not_idempotent (db : DB) (now : Date) (pid : Nat) (body : PayBody)
    (fresh1 fresh2 : String) :
    (db.payments.find? (fun q => decide (q.id = pid)) = none →
      pay db now pid body fresh1 fresh2 = (db, ⟨404, "Payment not found"⟩)) ∧
    (∀ p, db.payments.find? (fun q => decide (q.id = pid)) = some p →
      (pay db now pid body fresh1 fresh2).2.code = 200 ∧
      (∃ q, (pay db now pid body fresh1 fresh2).1.payments.find?
          (fun r => decide (r.id = pid)) = some q ∧
        q.status = PaymentStatus.completed ∧ q.paidDate = some now ∧
        q.paymentMethod = body.paymentMethod ∧
        q.transactionId = some body.transactionId ∧ q.notes = body.notes.getD "") ∧
      (∀ lid L, p.lease = some lid →
        db.leases.find? (fun x => decide (x.id = lid)) = some L →
        dateLt p.dueDate now = true →
        L.lateFeeGracePeriod < toDays now - toDays p.dueDate →
        0 < L.lateFeeAmount →
        (pay db now pid body fresh1 fresh2).1.payments.length = db.payments.length + 1)) ∧
    ((pay feeDb ⟨2024, 1, 20⟩ 1 lateBody "w1" "w2").2.code = 200 ∧
      (pay (pay feeDb ⟨2024, 1, 20⟩ 1 lateBody "w1" "w2").1 ⟨2024, 1, 21⟩ 1 repeatBody
        "w3" "w4").2.code = 200 ∧
      feeDb.payments.length = 1 ∧
      (pay feeDb ⟨2024, 1, 20⟩ 1 lateBody "w1" "w2").1.payments.length = 2 ∧
      (pay (pay feeDb ⟨2024, 1, 20⟩ 1 lateBody "w1" "w2").1 ⟨2024, 1, 21⟩ 1 repeatBody
        "w3" "w4").1.payments.length = 3) := by
  refine ⟨?_, ?_, by decide⟩
  · intro hnone
    unfold pay
    rw [hnone]
  · intro p h
    obtain ⟨hfind, hcode, himp1, _⟩ := pay_found_settled db now pid body fresh1 fresh2 p h
    refine ⟨hcode, ⟨_, hfind, ?_, ?_, ?_, ?_, ?_⟩, ?_⟩
    · rw [receiptHook_status]
      rfl
    · rw [receiptHook_paidDate]
      rfl
    · rw [receiptHook_paymentMethod]
      rfl
    · rw [receiptHook_transactionId]
      rfl
    · rw [receiptHook_notes]
      rfl
    · intro lid L hlease hlfind hlt hdays hamt
      have hfee := assessLateFee_of_late db p now lid L hlease hlfind hlt hdays
      have hpos : 0 < assessLateFee db p now := by
        rw [hfee]
        exact hamt
      rw [himp1 hpos, List.length_append, length_updateWhere]
      rfl

/-- Witness for C10: a missing payment id yields 404 with the store
untouched, and settling the existing (pending) payment 1 succeeds. -/
theorem claim10_settlement_witness :
    pay feeDb ⟨2024, 1, 2⟩ 99 lateBody "x1" "x2" = (feeDb, ⟨404, "Payment not found"⟩) ∧
    (pay feeDb ⟨2024, 1, 20⟩ 1 lateBody "x1" "x2").2.code = 200 :=
  ⟨(claim10_settlement_not_idempotent feeDb ⟨2024, 1, 2⟩ 99 lateBody "x1" "x2").1 (by decide),
   ((claim10_settlement_not_idempotent feeDb ⟨2024, 1, 20⟩ 1 lateBody "x1" "x2").2.1 feePayment
     (by decide)).1⟩

/-- Counterexample to C10 as stated: payment 1 of `zeroFeeDb` is 31 days
overdue with grace 5, yet settling it appends NO late-fee row — the
lease's late-fee amount is 0 and the route only creates the row
`if (lateFee > 0)`.  "Creates an additional synthetic late_fee row on
every call" fails without the nonzero-amount proviso. -/
theorem claim10_counterexample :
    dateLt feePayment.dueDate ⟨2024, 2, 1⟩ = true ∧
    (∃ L, zeroFeeDb.leases.find? (fun x => decide (x.id = 20)) = some L ∧
      L.lateFeeGracePeriod < toDays ⟨2024, 2, 1⟩ - toDays feePayment.dueDate ∧
      L.lateFeeAmount = 0) ∧
    (pay zeroFeeDb ⟨2024, 2, 1⟩ 1 lateBody "y1" "y2").1.payments.length =
      zeroFeeDb.payments.length := by decide
